import Mathlib

/-!
Verification of the event-ingestion and analytics pipeline.

Shallow embedding of the pipeline's core components, translated from the
Python source:

* `app/services/redis_service.py` — dedup cache (`IdempotencyService`) and
  fixed-window rate limiter (`RateLimiter`);
* `app/services/event_service.py` — store writer (`insert_events`) and the
  analytics queries (`get_dau`, `get_retention`);
* `app/api/routes/events.py` — ingest handler (`ingest_events`);
* `app/api/routes/stats.py` — stats route validation;
* `app/api/dependencies.py` — `check_rate_limit`;
* `app/workers/event_processor.py` — queue consumer (`process_event`).

Modelling conventions: event identifiers (UUIDs) are naturals; wall-clock
time is a natural number of seconds; timestamps are integers (seconds since
the epoch) and a calendar date is the floor-quotient by 86400; external
failures (database driver errors, publisher errors) are supplied by explicit
oracles; Redis state is an association list from key to absolute expiry
time, most recent binding first.
-/

/-- Event identifiers: 128-bit UUIDs in the source, abstracted as naturals
(only equality of identifiers is ever used). -/
abbrev EventId := Nat

/-- User identifiers: strings of length 1–255 in the source. -/
abbrev UserId := String

/-- `EventCreate` from `app/models/event.py`: one user-activity event.
`occurred_at` is the occurrence timestamp in seconds; `properties` is the
free-form JSON mapping, abstracted as a key/value list. -/
structure EventCreate where
  event_id : EventId
  user_id : UserId
  event_type : String
  occurred_at : Int
  properties : List (String × String) := []
  deriving DecidableEq

/-! ### Dedup cache (`IdempotencyService`, `app/services/redis_service.py`)

The Redis keys `event:seen:{id}` are modelled as an association list from
event id to the absolute expiry time of the key; a key is present exactly
when the current time is strictly below its expiry. -/

/-- State of the dedup cache: association list from event id to the absolute
expiry time (in seconds) of its `event:seen:` key.  `List.lookup` returns the
most recent binding. -/
abbrev SeenCache := List (EventId × Nat)

/-- Redis `EXISTS event:seen:{id}` at time `t`: the key is present iff it was
set with an expiry strictly in the future. -/
def aliveAt (cache : SeenCache) (t : Nat) (id : EventId) : Bool :=
  match cache.lookup id with
  | some e => decide (t < e)
  | none => false

/-- `IdempotencyService.is_duplicate`: `EXISTS` on the `event:seen:` key. -/
def is_duplicate (cache : SeenCache) (t : Nat) (id : EventId) : Bool :=
  aliveAt cache t id

/-- `IdempotencyService.mark_as_seen`: `SET key 1 EX ttl NX` — set the key
with the configured TTL only if it is absent.  Returns `true` iff the set
happened (the id had not been seen). -/
def mark_as_seen (cache : SeenCache) (ttl t : Nat) (id : EventId) :
    Bool × SeenCache :=
  if aliveAt cache t id then (false, cache) else (true, (id, t + ttl) :: cache)

/-- `IdempotencyService.check_batch`: one pipelined `EXISTS` per id, then a
partition of the input into `(new_ids, duplicate_ids)` preserving input
order.  The pipeline only reads, so every lookup of the call sees the same
cache state. -/
def check_batch (cache : SeenCache) (t : Nat) (ids : List EventId) :
    List EventId × List EventId :=
  (ids.filter (fun id => !aliveAt cache t id),
   ids.filter (fun id => aliveAt cache t id))

/-- `IdempotencyService.mark_batch_as_seen`: a pipelined `SET … EX ttl NX`
per id, executed in input order. -/
def mark_batch_as_seen (cache : SeenCache) (ttl t : Nat)
    (ids : List EventId) : SeenCache :=
  ids.foldl (fun c id => (mark_as_seen c ttl t id).2) cache

/-! ### C10: `check_batch` is an order-preserving partition -/

theorem check_batch_fst (cache : SeenCache) (t : Nat) (ids : List EventId) :
    (check_batch cache t ids).1 = ids.filter (fun id => !aliveAt cache t id) :=
  rfl

theorem check_batch_snd (cache : SeenCache) (t : Nat) (ids : List EventId) :
    (check_batch cache t ids).2 = ids.filter (fun id => aliveAt cache t id) :=
  rfl

theorem length_filter_add_length_filter_not {α : Type} (p : α → Bool)
    (l : List α) :
    (l.filter p).length + (l.filter (fun a => !p a)).length = l.length := by
  induction l with
  | nil => rfl
  | cons a l ih =>
    by_cases h : p a <;> simp [List.filter_cons, h] <;> omega

theorem check_batch_length (cache : SeenCache) (t : Nat) (ids : List EventId) :
    (check_batch cache t ids).1.length + (check_batch cache t ids).2.length
      = ids.length := by
  rw [check_batch_fst, check_batch_snd]
  have h := length_filter_add_length_filter_not
    (fun id => aliveAt cache t id) ids
  omega

theorem mem_check_batch_new {cache : SeenCache} {t : Nat} {ids : List EventId}
    {id : EventId} :
    id ∈ (check_batch cache t ids).1 ↔ id ∈ ids ∧ aliveAt cache t id = false := by
  rw [check_batch_fst]
  simp [List.mem_filter]

theorem mem_check_batch_dup {cache : SeenCache} {t : Nat} {ids : List EventId}
    {id : EventId} :
    id ∈ (check_batch cache t ids).2 ↔ id ∈ ids ∧ aliveAt cache t id = true := by
  rw [check_batch_snd]
  simp [List.mem_filter]

theorem check_batch_count (cache : SeenCache) (t : Nat) (ids : List EventId)
    (id : EventId) :
    (check_batch cache t ids).1.count id + (check_batch cache t ids).2.count id
      = ids.count id := by
  by_cases hb : aliveAt cache t id
  · have h1 : (check_batch cache t ids).1.count id = 0 := by
      refine List.count_eq_zero.mpr ?_
      intro hmem
      have := (mem_check_batch_new.mp hmem).2
      rw [hb] at this
      cases this
    have h2 : (check_batch cache t ids).2.count id = ids.count id := by
      rw [check_batch_snd]
      exact List.count_filter hb
    omega
  · have hb' : aliveAt cache t id = false := by
      cases h : aliveAt cache t id
      · rfl
      · exact absurd h hb
    have h1 : (check_batch cache t ids).2.count id = 0 := by
      refine List.count_eq_zero.mpr ?_
      intro hmem
      have := (mem_check_batch_dup.mp hmem).2
      rw [hb'] at this
      cases this
    have h2 : (check_batch cache t ids).1.count id = ids.count id := by
      rw [check_batch_fst]
      exact List.count_filter (by rw [hb']; rfl)
    omega

/-- C10: `check_batch` returns `(new_ids, duplicate_ids)` such that every
occurrence of the input appears in exactly one of the two outputs (occurrence
counts add up, and in particular the lengths add up), each output is a
sublist of the input (relative order is preserved), and all occurrences of
one identifier land in the same partition, because every existence lookup of
the call reads the same cache state. -/
theorem check_batch_partition (cache : SeenCache) (t : Nat)
    (ids : List EventId) :
    ((check_batch cache t ids).1.length + (check_batch cache t ids).2.length
        = ids.length) ∧
    (∀ id, (check_batch cache t ids).1.count id
        + (check_batch cache t ids).2.count id = ids.count id) ∧
    (check_batch cache t ids).1.Sublist ids ∧
    (check_batch cache t ids).2.Sublist ids ∧
    (∀ id, id ∈ ids →
      ((check_batch cache t ids).1.count id = ids.count id ∧
        id ∉ (check_batch cache t ids).2) ∨
      ((check_batch cache t ids).2.count id = ids.count id ∧
        id ∉ (check_batch cache t ids).1)) := by
  refine ⟨check_batch_length cache t ids,
    fun id => check_batch_count cache t ids id,
    List.filter_sublist ids, List.filter_sublist ids, ?_⟩
  intro id hid
  by_cases hb : aliveAt cache t id
  · right
    have hnot : id ∉ (check_batch cache t ids).1 := by
      intro hmem
      have := mem_check_batch_new.mp hmem
      rw [hb] at this
      exact absurd this.2 (by simp)
    refine ⟨?_, hnot⟩
    have hc0 : (check_batch cache t ids).1.count id = 0 :=
      List.count_eq_zero.mpr hnot
    have := check_batch_count cache t ids id
    omega
  · left
    have hnot : id ∉ (check_batch cache t ids).2 := by
      intro hmem
      have := mem_check_batch_dup.mp hmem
      exact hb this.2
    refine ⟨?_, hnot⟩
    have hc0 : (check_batch cache t ids).2.count id = 0 :=
      List.count_eq_zero.mpr hnot
    have := check_batch_count cache t ids id
    omega

/-- Witness for C10 at a concrete input: cache holds id 2 unexpired; the
batch `[1, 2, 2, 3]` puts both occurrences of 2 in the duplicate partition. -/
theorem check_batch_partition_witness :
    (check_batch [(2, 10)] 5 [1, 2, 2, 3]).2.count 2 = [1, 2, 2, 3].count 2 ∧
      2 ∉ (check_batch [(2, 10)] 5 [1, 2, 2, 3]).1 := by
  have h := check_batch_partition [(2, 10)] 5 [1, 2, 2, 3]
  rcases h.2.2.2.2 2 (by decide) with h1 | h1
  · exact absurd h1.1 (by decide)
  · exact h1

/-! ### C3: marked ids stay duplicates until TTL expiry; no false positives

The cache evolves only through the two marking operations; a trace of
operations models everything the service is ever asked to do between two
reads. -/

/-- Absolute expiry time recorded for an id; `0` when the key was never
set (a key with expiry `0` is never alive, since time is a natural). -/
def expiryOf (cache : SeenCache) (id : EventId) : Nat :=
  (cache.lookup id).getD 0

/-- One state-changing operation on the dedup cache. -/
inductive CacheOp where
  | mark (t : Nat) (id : EventId)
  | markBatch (t : Nat) (ids : List EventId)

/-- Effect of one operation on the cache state. -/
def CacheOp.apply (ttl : Nat) (cache : SeenCache) : CacheOp → SeenCache
  | .mark t id => (mark_as_seen cache ttl t id).2
  | .markBatch t ids => mark_batch_as_seen cache ttl t ids

/-- Run a trace of operations against the cache. -/
def applyOps (ttl : Nat) (cache : SeenCache) : List CacheOp → SeenCache
  | [] => cache
  | op :: ops => applyOps ttl (op.apply ttl cache) ops

/-- Whether an operation asks the cache to mark `id`. -/
def CacheOp.marksId (id : EventId) : CacheOp → Prop
  | .mark _ i => i = id
  | .markBatch _ ids => id ∈ ids

theorem mark_batch_as_seen_nil (cache : SeenCache) (ttl t : Nat) :
    mark_batch_as_seen cache ttl t [] = cache := rfl

theorem mark_batch_as_seen_cons (cache : SeenCache) (ttl t : Nat)
    (i : EventId) (ids : List EventId) :
    mark_batch_as_seen cache ttl t (i :: ids)
      = mark_batch_as_seen ((mark_as_seen cache ttl t i).2) ttl t ids := rfl

theorem lookup_mark_other {cache : SeenCache} {ttl t : Nat} {i id : EventId}
    (h : i ≠ id) :
    ((mark_as_seen cache ttl t id).2).lookup i = cache.lookup i := by
  unfold mark_as_seen
  by_cases hb : aliveAt cache t id
  · simp [hb]
  · simp only [hb, Bool.false_eq_true, if_false]
    rw [List.lookup_cons]
    have : (i == id) = false := by
      simp [h]
    rw [this]

theorem lookup_mark_batch_other {ttl t : Nat} {i : EventId}
    {ids : List EventId} (h : i ∉ ids) (cache : SeenCache) :
    (mark_batch_as_seen cache ttl t ids).lookup i = cache.lookup i := by
  induction ids generalizing cache with
  | nil => rfl
  | cons a l ih =>
    rw [mark_batch_as_seen_cons]
    have hi : i ∉ l := fun hmem => h (List.mem_cons_of_mem a hmem)
    have ha : i ≠ a := fun he => h (he ▸ List.mem_cons_self a l)
    rw [ih hi, lookup_mark_other ha]

theorem lookup_mark_self_fresh {cache : SeenCache} {ttl t : Nat}
    {id : EventId} (h : aliveAt cache t id = false) :
    ((mark_as_seen cache ttl t id).2).lookup id = some (t + ttl) := by
  unfold mark_as_seen
  rw [h]
  simp [List.lookup_cons]

theorem expiry_mono_mark (cache : SeenCache) (ttl t : Nat) (i id : EventId) :
    expiryOf cache i ≤ expiryOf ((mark_as_seen cache ttl t id).2) i := by
  by_cases hi : i = id
  · subst hi
    by_cases hb : aliveAt cache t i
    · unfold mark_as_seen
      rw [hb]
      simp
    · have hb' : aliveAt cache t i = false := by
        cases h : aliveAt cache t i
        · rfl
        · exact absurd h hb
      rw [expiryOf, expiryOf, lookup_mark_self_fresh hb']
      unfold aliveAt at hb'
      cases hl : cache.lookup i with
      | none => simp [hl]
      | some e =>
        rw [hl] at hb'
        simp only [decide_eq_false_iff_not, not_lt] at hb'
        simp [hl]
        omega
  · rw [expiryOf, expiryOf, lookup_mark_other hi]

theorem expiry_mono_mark_batch (cache : SeenCache) (ttl t : Nat)
    (i : EventId) (ids : List EventId) :
    expiryOf cache i ≤ expiryOf (mark_batch_as_seen cache ttl t ids) i := by
  induction ids generalizing cache with
  | nil => exact le_refl _
  | cons a l ih =>
    rw [mark_batch_as_seen_cons]
    exact le_trans (expiry_mono_mark cache ttl t i a)
      (ih ((mark_as_seen cache ttl t a).2))

theorem expiry_mono_op (ttl : Nat) (cache : SeenCache) (i : EventId)
    (op : CacheOp) :
    expiryOf cache i ≤ expiryOf (op.apply ttl cache) i := by
  cases op with
  | mark t id => exact expiry_mono_mark cache ttl t i id
  | markBatch t ids => exact expiry_mono_mark_batch cache ttl t i ids

theorem expiry_mono_ops (ttl : Nat) (i : EventId) (ops : List CacheOp)
    (cache : SeenCache) :
    expiryOf cache i ≤ expiryOf (applyOps ttl cache ops) i := by
  induction ops generalizing cache with
  | nil => exact le_refl _
  | cons op ops ih =>
    exact le_trans (expiry_mono_op ttl cache i op) (ih (op.apply ttl cache))

theorem aliveAt_of_lt_expiry {cache : SeenCache} {t : Nat} {id : EventId}
    (h : t < expiryOf cache id) : aliveAt cache t id = true := by
  unfold aliveAt
  unfold expiryOf at h
  cases hl : cache.lookup id with
  | none =>
    rw [hl] at h
    simp at h
  | some e =>
    rw [hl] at h
    simp only [Option.getD_some] at h
    simp [h]

theorem lookup_untouched_op {ttl : Nat} {i : EventId} {op : CacheOp}
    (h : ¬op.marksId i) (cache : SeenCache) :
    (op.apply ttl cache).lookup i = cache.lookup i := by
  cases op with
  | mark t id =>
    exact lookup_mark_other (fun he => h he.symm)
  | markBatch t ids =>
    exact lookup_mark_batch_other h cache

theorem lookup_untouched_ops {ttl : Nat} {i : EventId} {ops : List CacheOp}
    (h : ∀ op ∈ ops, ¬op.marksId i) (cache : SeenCache) :
    (applyOps ttl cache ops).lookup i = cache.lookup i := by
  induction ops generalizing cache with
  | nil => rfl
  | cons op ops ih =>
    have h1 : ¬op.marksId i := h op (List.mem_cons_self op ops)
    have h2 : ∀ o ∈ ops, ¬o.marksId i :=
      fun o ho => h o (List.mem_cons_of_mem op ho)
    rw [applyOps, ih h2 (op.apply ttl cache), lookup_untouched_op h1 cache]

theorem lookup_mark_keeps_fresh {cache : SeenCache} {ttl t : Nat}
    {i id : EventId} (h : cache.lookup id = some (t + ttl)) :
    ((mark_as_seen cache ttl t i).2).lookup id = some (t + ttl) := by
  by_cases hi : i = id
  · subst hi
    by_cases hb : aliveAt cache t i
    · unfold mark_as_seen
      rw [hb]
      simpa using h
    · have hb' : aliveAt cache t i = false := by
        cases hc : aliveAt cache t i
        · rfl
        · exact absurd hc hb
      rw [lookup_mark_self_fresh hb']
  · rw [lookup_mark_other (fun he => hi he.symm)]
    exact h

theorem lookup_mark_batch_keeps_fresh {ttl t : Nat} {id : EventId}
    {ids : List EventId} (cache : SeenCache)
    (h : cache.lookup id = some (t + ttl)) :
    (mark_batch_as_seen cache ttl t ids).lookup id = some (t + ttl) := by
  induction ids generalizing cache with
  | nil => exact h
  | cons a l ih =>
    rw [mark_batch_as_seen_cons]
    exact ih ((mark_as_seen cache ttl t a).2) (lookup_mark_keeps_fresh h)

theorem expiry_mark_batch_fresh {cache : SeenCache} {ttl t : Nat}
    {id : EventId} {ids : List EventId} (hb : aliveAt cache t id = false)
    (hm : id ∈ ids) :
    expiryOf (mark_batch_as_seen cache ttl t ids) id = t + ttl := by
  induction ids generalizing cache with
  | nil => cases hm
  | cons a l ih =>
    rw [mark_batch_as_seen_cons]
    by_cases ha : a = id
    · subst ha
      have hl : ((mark_as_seen cache ttl t a).2).lookup a = some (t + ttl) :=
        lookup_mark_self_fresh hb
      rw [expiryOf, lookup_mark_batch_keeps_fresh _ hl]
      rfl
    · have hm' : id ∈ l := by
        cases List.mem_cons.mp hm with
        | inl he => exact absurd he.symm ha
        | inr hl => exact hl
      have hb' : aliveAt ((mark_as_seen cache ttl t a).2) t id = false := by
        unfold aliveAt
        rw [lookup_mark_other (fun he => ha he.symm)]
        unfold aliveAt at hb
        exact hb
      exact ih hb' hm'

theorem dup_after_ops_of_lt_expiry {ttl : Nat} {cache : SeenCache}
    {ops : List CacheOp} {t : Nat} {id : EventId} {ids : List EventId}
    (hexp : t < expiryOf cache id) (hmem : id ∈ ids) :
    id ∈ (check_batch (applyOps ttl cache ops) t ids).2 := by
  have h1 : t < expiryOf (applyOps ttl cache ops) id :=
    lt_of_lt_of_le hexp (expiry_mono_ops ttl id ops cache)
  exact mem_check_batch_dup.mpr ⟨hmem, aliveAt_of_lt_expiry h1⟩

/-- C3: an id marked seen (by `mark_as_seen` or `mark_batch_as_seen`) has its
`event:seen:` key held until the key's TTL expiry: a fresh mark at time `t₀`
records expiry `t₀ + ttl`, and as long as the current time is below the
recorded expiry — whatever further marking operations run — `check_batch`
reports the id in the duplicate partition.  Conversely, starting from an
empty cache, an id that no operation of the trace ever marks is never
reported as duplicate, by `is_duplicate` or by `check_batch`. -/
theorem marked_seen_duplicate_until_ttl_no_false_positives :
    (∀ (cache : SeenCache) (ttl t₀ : Nat) (id : EventId),
      aliveAt cache t₀ id = false →
        expiryOf ((mark_as_seen cache ttl t₀ id).2) id = t₀ + ttl) ∧
    (∀ (cache : SeenCache) (ttl t₀ : Nat) (id : EventId)
        (ids₀ : List EventId),
      aliveAt cache t₀ id = false → id ∈ ids₀ →
        expiryOf (mark_batch_as_seen cache ttl t₀ ids₀) id = t₀ + ttl) ∧
    (∀ (ttl : Nat) (cache : SeenCache) (ops : List CacheOp) (t : Nat)
        (id : EventId) (ids : List EventId),
      t < expiryOf cache id → id ∈ ids →
        id ∈ (check_batch (applyOps ttl cache ops) t ids).2) ∧
    (∀ (ttl : Nat) (ops : List CacheOp) (t : Nat) (id : EventId)
        (ids : List EventId),
      (∀ op ∈ ops, ¬op.marksId id) →
        is_duplicate (applyOps ttl [] ops) t id = false ∧
        (id ∈ ids → id ∈ (check_batch (applyOps ttl [] ops) t ids).1)) := by
  refine ⟨?_, ?_, ?_, ?_⟩
  · intro cache ttl t₀ id h
    rw [expiryOf, lookup_mark_self_fresh h]
    rfl
  · intro cache ttl t₀ id ids₀ h hm
    exact expiry_mark_batch_fresh h hm
  · intro ttl cache ops t id ids hexp hmem
    exact dup_after_ops_of_lt_expiry hexp hmem
  · intro ttl ops t id ids h
    have hl : (applyOps ttl [] ops).lookup id = ([] : SeenCache).lookup id :=
      lookup_untouched_ops h []
    have halive : aliveAt (applyOps ttl [] ops) t id = false := by
      unfold aliveAt
      rw [hl]
      rfl
    refine ⟨halive, fun hmem => mem_check_batch_new.mpr ⟨hmem, halive⟩⟩

/-- Witness for C3 at concrete inputs: marking id 7 at time 100 with TTL 60
into an empty cache records expiry 160, and after a further unrelated mark
a `check_batch` at time 159 still reports 7 duplicate; a trace that never
marks id 9 never reports 9 duplicate. -/
theorem marked_seen_duplicate_until_ttl_no_false_positives_witness :
    expiryOf ((mark_as_seen [] 60 100 7).2) 7 = 160 ∧
    7 ∈ (check_batch
          (applyOps 60 ((mark_as_seen [] 60 100 7).2) [CacheOp.mark 120 3])
          159 [7, 9]).2 ∧
    is_duplicate (applyOps 60 [] [CacheOp.mark 120 3]) 159 9 = false := by
  have h := marked_seen_duplicate_until_ttl_no_false_positives
  have h1 : expiryOf ((mark_as_seen [] 60 100 7).2) 7 = 160 :=
    h.1 [] 60 100 7 (by decide)
  refine ⟨h1, ?_, ?_⟩
  · exact h.2.2.1 60 ((mark_as_seen [] 60 100 7).2) [CacheOp.mark 120 3]
      159 7 [7, 9] (by rw [h1]; decide) (by decide)
  · exact (h.2.2.2 60 [CacheOp.mark 120 3] 159 9 []
      (by
        intro op hop
        cases hop with
        | head => simp [CacheOp.marksId]
        | tail _ htl => cases htl)).1

/-! ### Rate limiter (`RateLimiter`, `app/services/redis_service.py`)

The Redis key `rate_limit:{client}` holds an integer counter; the state maps
each client to its counter value and the key's absolute expiry time. -/

/-- The three rate-limit settings from `app/core/config.py`. -/
structure RLSettings where
  rate_limit_enabled : Bool
  rate_limit_requests : Nat
  rate_limit_window : Nat

/-- Rate-limiter state: client id to (counter value, absolute expiry). -/
abbrev RLState := List (String × (Nat × Nat))

/-- Value of the counter key as Redis `INCR` sees it at time `t`: the stored
value while the key is unexpired, else 0 (absent / expired key). -/
def rlCount (st : RLState) (t : Nat) (client : String) : Nat :=
  match st.lookup client with
  | some (c, e) => if t < e then c else 0
  | none => 0

/-- `RateLimiter.is_allowed`: when the enable flag is off, allow and report
`max_requests` remaining without touching Redis.  Otherwise pipeline
`INCR key; EXPIRE key window`: the counter becomes its previous live value
plus one and the key's expiry is reset to `t + window`; the request is
allowed iff the incremented count is at most `max_requests`, and remaining
is `max(0, max_requests - count)`. -/
def is_allowed (cfg : RLSettings) (st : RLState) (t : Nat)
    (client : String) : (Bool × Int) × RLState :=
  if !cfg.rate_limit_enabled then
    ((true, (cfg.rate_limit_requests : Int)), st)
  else
    let current_count := rlCount st t client + 1
    ((decide (current_count ≤ cfg.rate_limit_requests),
      max 0 ((cfg.rate_limit_requests : Int) - (current_count : Int))),
     (client, (current_count, t + cfg.rate_limit_window)) :: st)

/-- Outcome of the `check_rate_limit` dependency: pass the request through
with the remaining budget recorded, or fail with HTTP 429 and the
`X-RateLimit-Remaining` header value. -/
inductive RateLimitOutcome where
  | allowed (remaining : Int)
  | rejected (status : Nat) (headerRemaining : String)
  deriving DecidableEq

/-- `check_rate_limit` from `app/api/dependencies.py`: consult
`RateLimiter.is_allowed`; on rejection raise 429 with header
`X-RateLimit-Remaining: 0` (the source hardcodes the string "0"). -/
def check_rate_limit (cfg : RLSettings) (st : RLState) (t : Nat)
    (client : String) : RateLimitOutcome × RLState :=
  let r := is_allowed cfg st t client
  if r.1.1 then (.allowed r.1.2, r.2) else (.rejected 429 "0", r.2)

/-- Run a sequence of rate-limited calls (given by their times) for one
client, collecting each call's allowed/denied verdict. -/
def rlRun (cfg : RLSettings) (client : String) :
    RLState → List Nat → List Bool × RLState
  | st, [] => ([], st)
  | st, t :: ts =>
    let r := is_allowed cfg st t client
    let rest := rlRun cfg client r.2 ts
    (r.1.1 :: rest.1, rest.2)

/-- C6: with the enable flag on, each `is_allowed` call increments the
client's live counter and resets its expiration to the window length; the
call is allowed exactly when the incremented count is at most
`max_requests`, and reports `max(0, max_requests − count)` remaining.  With
the flag off, every call is allowed, reports `max_requests` remaining and
leaves the state untouched. -/
theorem is_allowed_spec (cfg : RLSettings) (st : RLState) (t : Nat)
    (client : String) :
    (cfg.rate_limit_enabled = false →
      is_allowed cfg st t client
        = ((true, (cfg.rate_limit_requests : Int)), st)) ∧
    (cfg.rate_limit_enabled = true →
      ((is_allowed cfg st t client).1.1 = true ↔
        rlCount st t client + 1 ≤ cfg.rate_limit_requests) ∧
      (is_allowed cfg st t client).1.2
        = max 0 ((cfg.rate_limit_requests : Int)
            - ((rlCount st t client : Int) + 1)) ∧
      ((is_allowed cfg st t client).2).lookup client
        = some (rlCount st t client + 1, t + cfg.rate_limit_window)) := by
  constructor
  · intro h
    unfold is_allowed
    rw [h]
    rfl
  · intro h
    unfold is_allowed
    rw [h]
    refine ⟨by simp, by push_cast; simp, ?_⟩
    simp only [Bool.not_true, Bool.false_eq_true, if_false]
    rw [List.lookup_cons]
    simp

/-- Witness for C6 at a concrete input: client "c" with a live counter of 2
at time 10, limit 5, window 60. -/
theorem is_allowed_spec_witness :
    ((is_allowed ⟨true, 5, 60⟩ [("c", (2, 30))] 10 "c").1.1 = true ↔
        rlCount [("c", (2, 30))] 10 "c" + 1 ≤ 5) ∧
    (is_allowed ⟨false, 5, 60⟩ [("c", (2, 30))] 10 "c"
        = ((true, (5 : Int)), [("c", (2, 30))])) := by
  refine ⟨(is_allowed_spec ⟨true, 5, 60⟩ [("c", (2, 30))] 10 "c").2 rfl |>.1,
    (is_allowed_spec ⟨false, 5, 60⟩ [("c", (2, 30))] 10 "c").1 rfl⟩

theorem is_allowed_enabled_state (cfg : RLSettings) (st : RLState) (t : Nat)
    (client : String) (hEn : cfg.rate_limit_enabled = true) :
    (is_allowed cfg st t client).2
      = (client, (rlCount st t client + 1, t + cfg.rate_limit_window)) :: st := by
  unfold is_allowed
  rw [hEn]
  simp

theorem is_allowed_enabled_verdict (cfg : RLSettings) (st : RLState) (t : Nat)
    (client : String) (hEn : cfg.rate_limit_enabled = true) :
    (is_allowed cfg st t client).1.1
      = decide (rlCount st t client + 1 ≤ cfg.rate_limit_requests) := by
  unfold is_allowed
  rw [hEn]
  simp

theorem rlCount_is_allowed_next (cfg : RLSettings) (st : RLState)
    (t t' : Nat) (client : String) (hEn : cfg.rate_limit_enabled = true)
    (ht : t' < t + cfg.rate_limit_window) :
    rlCount ((is_allowed cfg st t client).2) t' client
      = rlCount st t client + 1 := by
  rw [is_allowed_enabled_state cfg st t client hEn]
  unfold rlCount
  rw [List.lookup_cons]
  simp [ht]

theorem rlRun_count_true_le (cfg : RLSettings) (client : String)
    (hEn : cfg.rate_limit_enabled = true) :
    ∀ (ts : List Nat) (t : Nat) (st : RLState),
      List.Chain' (fun a b => b < a + cfg.rate_limit_window) (t :: ts) →
      (rlRun cfg client st (t :: ts)).1.count true
        ≤ cfg.rate_limit_requests - rlCount st t client := by
  intro ts
  induction ts with
  | nil =>
    intro t st _
    show ((is_allowed cfg st t client).1.1 :: ([] : List Bool)).count true
        ≤ cfg.rate_limit_requests - rlCount st t client
    rw [is_allowed_enabled_verdict cfg st t client hEn]
    cases hd : decide (rlCount st t client + 1 ≤ cfg.rate_limit_requests) with
    | false => simp [List.count_cons]
    | true =>
      have h := of_decide_eq_true hd
      simp [List.count_cons]
      omega
  | cons t₁ ts' ih =>
    intro t st hchain
    have hstep : t₁ < t + cfg.rate_limit_window :=
      (List.chain'_cons.mp hchain).1
    have hchain' : List.Chain' (fun a b => b < a + cfg.rate_limit_window)
        (t₁ :: ts') := (List.chain'_cons.mp hchain).2
    have hnext := rlCount_is_allowed_next cfg st t t₁ client hEn hstep
    have hrest := ih t₁ ((is_allowed cfg st t client).2) hchain'
    rw [hnext] at hrest
    show ((is_allowed cfg st t client).1.1 ::
        (rlRun cfg client ((is_allowed cfg st t client).2) (t₁ :: ts')).1).count
        true ≤ cfg.rate_limit_requests - rlCount st t client
    rw [is_allowed_enabled_verdict cfg st t client hEn]
    cases hd : decide (rlCount st t client + 1 ≤ cfg.rate_limit_requests) with
    | false =>
      simp only [List.count_cons]
      simp only [show ((false == true) = true) = False by simp, if_false]
      omega
    | true =>
      have h := of_decide_eq_true hd
      simp only [List.count_cons]
      simp only [show ((true == true) = true) = True by simp, if_true]
      omega

theorem rlRun_replicate_count (cfg : RLSettings) (client : String)
    (hEn : cfg.rate_limit_enabled = true)
    (hw : 0 < cfg.rate_limit_window) :
    ∀ (k : Nat) (st : RLState) (t : Nat),
      rlCount (rlRun cfg client st (List.replicate k t)).2 t client
        = rlCount st t client + k := by
  intro k
  induction k with
  | zero => intro st t; rfl
  | succ k ih =>
    intro st t
    have hshape : (rlRun cfg client st (List.replicate (k + 1) t)).2
        = (rlRun cfg client ((is_allowed cfg st t client).2)
            (List.replicate k t)).2 := rfl
    rw [hshape, ih, rlCount_is_allowed_next cfg _ t t client hEn (by omega)]
    omega

theorem rlRun_replicate_all_true (cfg : RLSettings) (client : String)
    (hEn : cfg.rate_limit_enabled = true)
    (hw : 0 < cfg.rate_limit_window) :
    ∀ (k : Nat) (st : RLState) (t : Nat),
      rlCount st t client + k ≤ cfg.rate_limit_requests →
      (rlRun cfg client st (List.replicate k t)).1
        = List.replicate k true := by
  intro k
  induction k with
  | zero => intro st t _; rfl
  | succ k ih =>
    intro st t hle
    have hshape : (rlRun cfg client st (List.replicate (k + 1) t)).1
        = (is_allowed cfg st t client).1.1 ::
          (rlRun cfg client ((is_allowed cfg st t client).2)
            (List.replicate k t)).1 := rfl
    rw [hshape, is_allowed_enabled_verdict cfg st t client hEn]
    have hhead : decide (rlCount st t client + 1 ≤ cfg.rate_limit_requests)
        = true := decide_eq_true (by omega)
    have htail := ih ((is_allowed cfg st t client).2) t
      (by rw [rlCount_is_allowed_next cfg st t t client hEn (by omega)]; omega)
    rw [hhead, htail]
    rfl

/-- C7: with rate limiting enabled, in any run of calls in which no gap
between consecutive calls reaches the window length (the fixed window never
rolls over — the documented TTL-boundary caveat), at most `max_requests`
calls are admitted; and a client starting from a zero counter that issues
`max_requests + 1` calls within the window has its first `max_requests`
calls allowed and the last rejected with status 429 and header
`X-RateLimit-Remaining: 0`. -/
theorem rate_limit_admits_at_most_max :
    (∀ (cfg : RLSettings) (client : String) (st : RLState) (ts : List Nat),
      cfg.rate_limit_enabled = true →
      List.Chain' (fun a b => b < a + cfg.rate_limit_window) ts →
      (rlRun cfg client st ts).1.count true ≤ cfg.rate_limit_requests) ∧
    (∀ (cfg : RLSettings) (client : String) (st : RLState) (t : Nat),
      cfg.rate_limit_enabled = true → 0 < cfg.rate_limit_window →
      rlCount st t client = 0 →
      (rlRun cfg client st (List.replicate cfg.rate_limit_requests t)).1
        = List.replicate cfg.rate_limit_requests true ∧
      (check_rate_limit cfg
          (rlRun cfg client st (List.replicate cfg.rate_limit_requests t)).2
          t client).1 = RateLimitOutcome.rejected 429 "0") := by
  constructor
  · intro cfg client st ts hEn hchain
    cases ts with
    | nil => exact Nat.zero_le _
    | cons t ts' =>
      have h := rlRun_count_true_le cfg client hEn ts' t st hchain
      omega
  · intro cfg client st t hEn hw h0
    refine ⟨rlRun_replicate_all_true cfg client hEn hw cfg.rate_limit_requests
      st t (by omega), ?_⟩
    have hc := rlRun_replicate_count cfg client hEn hw cfg.rate_limit_requests
      st t
    rw [h0] at hc
    have hv := is_allowed_enabled_verdict cfg
      (rlRun cfg client st (List.replicate cfg.rate_limit_requests t)).2
      t client hEn
    rw [hc] at hv
    have hfalse : (is_allowed cfg
        (rlRun cfg client st (List.replicate cfg.rate_limit_requests t)).2
        t client).1.1 = false := by
      rw [hv]
      exact decide_eq_false (by omega)
    show (if (is_allowed cfg
        (rlRun cfg client st (List.replicate cfg.rate_limit_requests t)).2
        t client).1.1 = true
      then (RateLimitOutcome.allowed _, _)
      else (RateLimitOutcome.rejected 429 "0", _)).1
        = RateLimitOutcome.rejected 429 "0"
    rw [hfalse]
    simp

/-- Witness for C7 at a concrete input: limit 2, window 60, three calls at
time 0 from a fresh client — two allowed, third rejected with header "0". -/
theorem rate_limit_admits_at_most_max_witness :
    ((rlRun ⟨true, 2, 60⟩ "c" [] [0, 0, 0]).1.count true ≤ 2) ∧
    ((rlRun ⟨true, 2, 60⟩ "c" [] (List.replicate 2 0)).1
        = List.replicate 2 true) ∧
    ((check_rate_limit ⟨true, 2, 60⟩
        (rlRun ⟨true, 2, 60⟩ "c" [] (List.replicate 2 0)).2 0 "c").1
      = RateLimitOutcome.rejected 429 "0") := by
  have h1 := rate_limit_admits_at_most_max.1 ⟨true, 2, 60⟩ "c" [] [0, 0, 0]
    rfl (by
      refine List.chain'_cons.mpr ⟨?_, List.chain'_cons.mpr
        ⟨?_, List.chain'_singleton 0⟩⟩ <;> decide)
  have h2 := rate_limit_admits_at_most_max.2 ⟨true, 2, 60⟩ "c" [] 0
    rfl (by decide) rfl
  exact ⟨h1, h2.1, h2.2⟩

/-! ### Ingest handler (`ingest_events`, `app/api/routes/events.py`)

The handler runs against the dedup cache, the queue publisher and the
metrics counters; the durable store is part of the state but is never
touched by the handler (persistence is asynchronous).  A publisher failure
is modelled by an oracle giving the index of the first publish call that
raises (`none` = all publishes succeed); it surfaces as HTTP 500. -/

/-- `EventResponse` from `app/models/event.py`. -/
structure EventResponse where
  accepted : Nat
  duplicates : Nat
  failed : Nat
  message : String
  deriving DecidableEq

/-- Combined state the ingest handler can observe or modify: the dedup
cache, the queue of published events, the durable store, and the metrics
counters it increments. -/
structure IngestState where
  seen : SeenCache
  published : List EventCreate
  store : List EventCreate
  received_total : Nat
  duplicate_total : Nat
  failed_total : Nat
  deriving DecidableEq

/-- `ingest_events`: extract the batch's event ids, partition them against
the dedup cache with `check_batch`, keep the events whose id is in
`new_ids`; if none are new return `{accepted := 0, duplicates, failed := 0}`
at once; otherwise mark the new ids seen, publish the new events one by one
(`publishFailAt = some k` makes the `k`-th publish raise, aborting the rest
and surfacing HTTP 500), and return
`{accepted := |new_events|, duplicates, failed := 0}` with status 202. -/
def ingest_events (ttl t : Nat) (publishFailAt : Option Nat)
    (batch : List EventCreate) (st : IngestState) :
    Except Nat EventResponse × IngestState :=
  let event_ids := batch.map (fun e => e.event_id)
  let checked := check_batch st.seen t event_ids
  let new_ids := checked.1
  let duplicate_ids := checked.2
  let new_events := batch.filter (fun e => new_ids.contains e.event_id)
  let st₁ := { st with
    received_total := st.received_total + batch.length,
    duplicate_total := st.duplicate_total + duplicate_ids.length }
  if new_events.isEmpty then
    (.ok ⟨0, duplicate_ids.length, 0, "All events were duplicates"⟩, st₁)
  else
    let seen' := mark_batch_as_seen st₁.seen ttl t new_ids
    match publishFailAt with
    | some k =>
      if k < new_events.length then
        (.error 500,
         { st₁ with seen := seen',
                    published := st₁.published ++ new_events.take k,
                    failed_total := st₁.failed_total + 1 })
      else
        (.ok ⟨new_events.length, duplicate_ids.length, 0,
              "Accepted events for processing"⟩,
         { st₁ with seen := seen', published := st₁.published ++ new_events })
    | none =>
      (.ok ⟨new_events.length, duplicate_ids.length, 0,
            "Accepted events for processing"⟩,
       { st₁ with seen := seen', published := st₁.published ++ new_events })

/-- The events the handler keeps are exactly the batch events whose id is
not live in the cache: membership in `new_ids` coincides with a failed
existence lookup for events of the batch. -/
theorem ingest_new_events_eq_filter (cache : SeenCache) (t : Nat)
    (batch : List EventCreate) :
    batch.filter (fun e =>
        ((check_batch cache t (batch.map (fun e => e.event_id))).1).contains
          e.event_id)
      = batch.filter (fun e => !aliveAt cache t e.event_id) := by
  apply List.filter_congr
  intro e he
  by_cases hb : aliveAt cache t e.event_id
  · have hnot : e.event_id ∉
        (check_batch cache t (batch.map (fun e => e.event_id))).1 := by
      intro hmem
      have := (mem_check_batch_new.mp hmem).2
      rw [hb] at this
      cases this
    have h1 : ((check_batch cache t (batch.map (fun e => e.event_id))).1).contains
        e.event_id = false := by
      cases hc : ((check_batch cache t (batch.map (fun e => e.event_id))).1).contains
          e.event_id
      · rfl
      · exact absurd (List.elem_iff.mp hc) hnot
    rw [h1, hb]
    rfl
  · have hb' : aliveAt cache t e.event_id = false := by
      cases hc : aliveAt cache t e.event_id
      · rfl
      · exact absurd hc hb
    have hmem : e.event_id ∈
        (check_batch cache t (batch.map (fun e => e.event_id))).1 :=
      mem_check_batch_new.mpr ⟨List.mem_map_of_mem _ he, hb'⟩
    have h1 : ((check_batch cache t (batch.map (fun e => e.event_id))).1).contains
        e.event_id = true := List.elem_iff.mpr hmem
    rw [h1, hb']
    rfl

/-- `|new_events| = |new_ids|`: the number of kept events equals the number
of new ids, including when the batch repeats an identifier. -/
theorem ingest_new_events_length (cache : SeenCache) (t : Nat)
    (batch : List EventCreate) :
    (batch.filter (fun e =>
        ((check_batch cache t (batch.map (fun e => e.event_id))).1).contains
          e.event_id)).length
      = (check_batch cache t (batch.map (fun e => e.event_id))).1.length := by
  rw [ingest_new_events_eq_filter, check_batch_fst, List.filter_map]
  rw [List.length_map]
  rfl

theorem ingest_events_empty_shape (ttl t : Nat) (pf : Option Nat)
    (batch : List EventCreate) (st : IngestState)
    (h : (check_batch st.seen t (batch.map (fun e => e.event_id))).1 = []) :
    ingest_events ttl t pf batch st
      = (.ok ⟨0,
            (check_batch st.seen t (batch.map (fun e => e.event_id))).2.length,
            0, "All events were duplicates"⟩,
         { st with
            received_total := st.received_total + batch.length,
            duplicate_total := st.duplicate_total +
              (check_batch st.seen t
                (batch.map (fun e => e.event_id))).2.length }) := by
  have hempty : (batch.filter (fun e =>
      ((check_batch st.seen t (batch.map (fun e => e.event_id))).1).contains
        e.event_id)).isEmpty = true := by
    simp only [h]
    simp
  unfold ingest_events
  simp only [hempty]
  rfl

theorem ingest_events_nonempty_ok_shape (ttl t : Nat)
    (batch : List EventCreate) (st : IngestState) (pf : Option Nat)
    (h : (check_batch st.seen t (batch.map (fun e => e.event_id))).1 ≠ [])
    (hpf : ∀ k, pf = some k →
      (batch.filter (fun e =>
        ((check_batch st.seen t (batch.map (fun e => e.event_id))).1).contains
          e.event_id)).length ≤ k) :
    ingest_events ttl t pf batch st
      = (.ok ⟨(batch.filter (fun e =>
            ((check_batch st.seen t
              (batch.map (fun e => e.event_id))).1).contains
              e.event_id)).length,
            (check_batch st.seen t (batch.map (fun e => e.event_id))).2.length,
            0, "Accepted events for processing"⟩,
         { st with
            seen := mark_batch_as_seen st.seen ttl t
              (check_batch st.seen t (batch.map (fun e => e.event_id))).1,
            published := st.published ++ batch.filter (fun e =>
              ((check_batch st.seen t
                (batch.map (fun e => e.event_id))).1).contains e.event_id),
            received_total := st.received_total + batch.length,
            duplicate_total := st.duplicate_total +
              (check_batch st.seen t
                (batch.map (fun e => e.event_id))).2.length }) := by
  have hlen : (batch.filter (fun e =>
      ((check_batch st.seen t (batch.map (fun e => e.event_id))).1).contains
        e.event_id)).length
      = (check_batch st.seen t (batch.map (fun e => e.event_id))).1.length :=
    ingest_new_events_length st.seen t batch
  have hne : (batch.filter (fun e =>
      ((check_batch st.seen t (batch.map (fun e => e.event_id))).1).contains
        e.event_id)).isEmpty = false := by
    rw [List.isEmpty_eq_false]
    intro hnil
    apply h
    have := hlen
    rw [hnil] at this
    exact List.length_eq_zero.mp this.symm
  unfold ingest_events
  simp only [hne]
  cases pf with
  | none => rfl
  | some k =>
    have hk := hpf k rfl
    have hklt : ¬ (k < (batch.filter (fun e =>
        ((check_batch st.seen t (batch.map (fun e => e.event_id))).1).contains
          e.event_id)).length) := by omega
    simp only [Bool.false_eq_true, if_false, hklt, if_false]

theorem ingest_events_publish_fail_shape (ttl t : Nat) (k : Nat)
    (batch : List EventCreate) (st : IngestState)
    (hk : k < (batch.filter (fun e =>
        ((check_batch st.seen t (batch.map (fun e => e.event_id))).1).contains
          e.event_id)).length) :
    ingest_events ttl t (some k) batch st
      = (.error 500,
         { st with
            seen := mark_batch_as_seen st.seen ttl t
              (check_batch st.seen t (batch.map (fun e => e.event_id))).1,
            published := st.published ++ (batch.filter (fun e =>
              ((check_batch st.seen t
                (batch.map (fun e => e.event_id))).1).contains
                e.event_id)).take k,
            received_total := st.received_total + batch.length,
            duplicate_total := st.duplicate_total +
              (check_batch st.seen t
                (batch.map (fun e => e.event_id))).2.length,
            failed_total := st.failed_total + 1 }) := by
  have hne : (batch.filter (fun e =>
      ((check_batch st.seen t (batch.map (fun e => e.event_id))).1).contains
        e.event_id)).isEmpty = false := by
    rw [List.isEmpty_eq_false]
    intro hnil
    rw [hnil] at hk
    exact absurd hk (by simp)
  unfold ingest_events
  simp only [hne, Bool.false_eq_true, if_false, hk, if_true]

theorem ingest_events_ok_counts {ttl t : Nat} {pf : Option Nat}
    {batch : List EventCreate} {st : IngestState} {resp : EventResponse}
    {st' : IngestState}
    (hok : ingest_events ttl t pf batch st = (.ok resp, st')) :
    resp.accepted
        = (check_batch st.seen t (batch.map (fun e => e.event_id))).1.length ∧
    resp.duplicates
        = (check_batch st.seen t (batch.map (fun e => e.event_id))).2.length ∧
    resp.failed = 0 ∧
    resp.accepted + resp.duplicates + resp.failed = batch.length := by
  have hsum := check_batch_length st.seen t (batch.map (fun e => e.event_id))
  have hmaplen : (batch.map (fun e => e.event_id)).length = batch.length :=
    List.length_map batch _
  by_cases h : (check_batch st.seen t (batch.map (fun e => e.event_id))).1 = []
  · rw [ingest_events_empty_shape ttl t pf batch st h] at hok
    have hresp := Except.ok.inj (congrArg Prod.fst hok)
    rw [← hresp]
    have hzero : (check_batch st.seen t
        (batch.map (fun e => e.event_id))).1.length = 0 := by
      rw [h]
      rfl
    refine ⟨by rw [hzero], rfl, rfl, ?_⟩
    simp only
    omega
  · have hlen := ingest_new_events_length st.seen t batch
    cases pf with
    | none =>
      rw [ingest_events_nonempty_ok_shape ttl t batch st none h
        (fun k hk => by cases hk)] at hok
      have hresp := Except.ok.inj (congrArg Prod.fst hok)
      rw [← hresp]
      refine ⟨by rw [hlen], rfl, rfl, ?_⟩
      simp only
      omega
    | some k =>
      by_cases hk : k < (batch.filter (fun e =>
          ((check_batch st.seen t
            (batch.map (fun e => e.event_id))).1).contains
            e.event_id)).length
      · rw [ingest_events_publish_fail_shape ttl t k batch st hk] at hok
        exact absurd (congrArg Prod.fst hok) (by simp)
      · rw [ingest_events_nonempty_ok_shape ttl t batch st (some k) h
          (fun k' hk' => by
            have hkk : k = k' := by injection hk'
            omega)] at hok
        have hresp := Except.ok.inj (congrArg Prod.fst hok)
        rw [← hresp]
        refine ⟨by rw [hlen], rfl, rfl, ?_⟩
        simp only
        omega

/-- C2: whenever the ingest handler returns a success (202) response, the
response reports `accepted = |new_ids|`, `duplicates = |duplicate_ids|` and
`failed = 0` for the `check_batch` partition of the batch's event ids, so
`|B| = accepted + duplicates + failed`; and when `new_ids` is empty the
handler returns `{accepted := 0, duplicates := |duplicate_ids|,
failed := 0}` as a success without marking the cache, publishing to the
queue, or touching the store. -/
theorem ingest_events_response_counts (ttl t : Nat) (pf : Option Nat)
    (batch : List EventCreate) (st : IngestState) :
    (∀ resp st', ingest_events ttl t pf batch st = (.ok resp, st') →
      resp.accepted
          = (check_batch st.seen t (batch.map (fun e => e.event_id))).1.length ∧
      resp.duplicates
          = (check_batch st.seen t (batch.map (fun e => e.event_id))).2.length ∧
      resp.failed = 0 ∧
      resp.accepted + resp.duplicates + resp.failed = batch.length) ∧
    ((check_batch st.seen t (batch.map (fun e => e.event_id))).1 = [] →
      ∃ st', ingest_events ttl t pf batch st
          = (.ok ⟨0,
              (check_batch st.seen t
                (batch.map (fun e => e.event_id))).2.length,
              0, "All events were duplicates"⟩, st') ∧
        st'.seen = st.seen ∧ st'.published = st.published ∧
        st'.store = st.store) := by
  constructor
  · intro resp st' hok
    exact ingest_events_ok_counts hok
  · intro h
    exact ⟨_, ingest_events_empty_shape ttl t pf batch st h, rfl, rfl, rfl⟩

/-- Sample events for concrete witnesses. -/
def evA : EventCreate := ⟨1, "u1", "click", 10, []⟩

def evB : EventCreate := ⟨2, "u2", "view", 3600, []⟩

/-- Empty initial pipeline state for concrete witnesses. -/
def st0 : IngestState := ⟨[], [], [], 0, 0, 0⟩

/-- Witness for C2 at a concrete input: a fresh two-event batch is fully
accepted with `2 + 0 + 0 = 2`; a batch against a cache that already holds
both ids returns `{accepted := 0, duplicates := 2, failed := 0}` without
state change. -/
theorem ingest_events_response_counts_witness :
    ((⟨2, 0, 0, "Accepted events for processing"⟩ : EventResponse).accepted
        = (check_batch st0.seen 0 ([evA, evB].map (fun e => e.event_id))).1.length ∧
      (⟨2, 0, 0, "Accepted events for processing"⟩ : EventResponse).duplicates
        = (check_batch st0.seen 0 ([evA, evB].map (fun e => e.event_id))).2.length ∧
      (⟨2, 0, 0, "Accepted events for processing"⟩ : EventResponse).failed = 0 ∧
      2 + 0 + 0 = [evA, evB].length) ∧
    (∃ st', ingest_events 100 5 none [evA, evB]
        ⟨[(1, 50), (2, 50)], [], [], 0, 0, 0⟩
        = (.ok ⟨0, 2, 0, "All events were duplicates"⟩, st') ∧
      st'.seen = [(1, 50), (2, 50)] ∧ st'.published = [] ∧ st'.store = []) := by
  constructor
  · exact (ingest_events_response_counts 100 0 none [evA, evB] st0).1
      ⟨2, 0, 0, "Accepted events for processing"⟩
      ⟨mark_batch_as_seen st0.seen 100 0 [1, 2], [evA, evB], [], 2, 0, 0⟩
      (by rfl)
  · have h := (ingest_events_response_counts 100 5 none [evA, evB]
      ⟨[(1, 50), (2, 50)], [], [], 0, 0, 0⟩).2 (by decide)
    obtain ⟨st', hst', hseen, hpub, hstore⟩ := h
    exact ⟨st', by
      have hdup : (check_batch (⟨[(1, 50), (2, 50)], [], [], 0, 0, 0⟩ :
          IngestState).seen 5 ([evA, evB].map (fun e => e.event_id))).2.length
          = 2 := by decide
      rw [hdup] at hst'
      exact hst', hseen, hpub, hstore⟩

/-- C8: after a successful submission of a batch, resubmitting the same
batch while every id of the batch is still live in the dedup cache (no
intervening TTL expiry) yields a success response with `accepted₂ = 0` and
`duplicates₂ = |B|`, so `accepted₂ + duplicates₂ = accepted₁ + duplicates₁`;
the second submission publishes nothing and leaves the dedup cache and the
durable store untouched. -/
theorem ingest_events_resubmission_idempotent (ttl t t' : Nat)
    (batch : List EventCreate) (st : IngestState) (resp₁ : EventResponse)
    (st₁ : IngestState) (pf : Option Nat)
    (h₁ : ingest_events ttl t none batch st = (.ok resp₁, st₁))
    (halive : ∀ id ∈ batch.map (fun e => e.event_id),
      aliveAt st₁.seen t' id = true) :
    ∃ st₂, ingest_events ttl t' pf batch st₁
        = (.ok ⟨0, batch.length, 0, "All events were duplicates"⟩, st₂) ∧
      0 + batch.length = resp₁.accepted + resp₁.duplicates ∧
      st₂.seen = st₁.seen ∧ st₂.published = st₁.published ∧
      st₂.store = st₁.store := by
  have hnew : (check_batch st₁.seen t'
      (batch.map (fun e => e.event_id))).1 = [] := by
    rw [check_batch_fst]
    rw [List.filter_eq_nil_iff]
    intro id hid
    rw [halive id hid]
    simp
  have hdup : (check_batch st₁.seen t'
      (batch.map (fun e => e.event_id))).2.length = batch.length := by
    rw [check_batch_snd]
    rw [List.filter_eq_self.mpr (fun id hid => halive id hid)]
    exact List.length_map batch _
  have hshape := ingest_events_empty_shape ttl t' pf batch st₁ hnew
  rw [hdup] at hshape
  have hcounts := ingest_events_ok_counts h₁
  refine ⟨_, hshape, ?_, rfl, rfl, rfl⟩
  obtain ⟨ha, hd, hf, hsum⟩ := hcounts
  omega

/-- Witness for C8 at a concrete input: submit `[evA, evB]` twice against an
initially empty pipeline with TTL 100, the second time at `t' = 50 < 100`. -/
theorem ingest_events_resubmission_idempotent_witness :
    ∃ st₂, ingest_events 100 50 none [evA, evB]
        ⟨mark_batch_as_seen st0.seen 100 0 [1, 2], [evA, evB], [], 2, 0, 0⟩
        = (.ok ⟨0, 2, 0, "All events were duplicates"⟩, st₂) ∧
      0 + 2 = (⟨2, 0, 0, "Accepted events for processing"⟩ :
          EventResponse).accepted
        + (⟨2, 0, 0, "Accepted events for processing"⟩ :
          EventResponse).duplicates ∧
      st₂.seen = mark_batch_as_seen st0.seen 100 0 [1, 2] ∧
      st₂.published = [evA, evB] ∧ st₂.store = [] := by
  have h := ingest_events_resubmission_idempotent 100 0 50 [evA, evB] st0
    ⟨2, 0, 0, "Accepted events for processing"⟩
    ⟨mark_batch_as_seen st0.seen 100 0 [1, 2], [evA, evB], [], 2, 0, 0⟩
    none (by rfl) (by decide)
  obtain ⟨st₂, heq, hsum, hseen, hpub, hstore⟩ := h
  have hlen : [evA, evB].length = 2 := rfl
  rw [hlen] at heq hsum
  exact ⟨st₂, heq, hsum, hseen, hpub, hstore⟩

/-! ### Event store writer (`EventService.insert_events`,
`app/services/event_service.py`)

Each event is inserted with `ON CONFLICT (event_id) DO NOTHING`; the
returned row count is 1 for a new row and 0 for a collision.  All inserts of
one call share one transaction: `session.commit()` at the end makes the
accumulated writes durable, and a driver-level exception (modelled by the
`raises` oracle giving the failing insert's index) rolls the transaction
back — the durable store is left as it was — and propagates. -/

/-- One `INSERT … ON CONFLICT (event_id) DO NOTHING RETURNING id`:
returns the store after the statement and the statement's row count. -/
def insertOne (store : List EventCreate) (e : EventCreate) :
    List EventCreate × Nat :=
  if store.any (fun r => r.event_id == e.event_id) then (store, 0)
  else (store ++ [e], 1)

/-- Whether the store already holds a row with the given event id. -/
def storeHasId (store : List EventCreate) (id : EventId) : Bool :=
  store.any (fun r => r.event_id == id)

/-- The loop of `insert_events` inside the transaction: issue the inserts in
order, counting rows inserted and collisions; a driver exception at index
`i` (per the `raises` oracle) aborts the loop. -/
def insertLoop (raises : Nat → Bool) :
    List EventCreate → List EventCreate → Nat → Nat → Nat →
      Except Unit (Nat × Nat × List EventCreate)
  | store, [], inserted, duplicates, _ => .ok (inserted, duplicates, store)
  | store, e :: rest, inserted, duplicates, i =>
    if raises i then .error ()
    else if (insertOne store e).2 > 0 then
      insertLoop raises (insertOne store e).1 rest (inserted + 1) duplicates
        (i + 1)
    else
      insertLoop raises (insertOne store e).1 rest inserted (duplicates + 1)
        (i + 1)

/-- `EventService.insert_events` with the surrounding transaction from
`get_session`: on success the transaction commits and the new store is
visible; on an exception the transaction rolls back (the durable store is
unchanged) and the exception propagates. -/
def insert_events (raises : Nat → Bool) (store : List EventCreate)
    (events : List EventCreate) :
    Except Unit (Nat × Nat) × List EventCreate :=
  match insertLoop raises store events 0 0 0 with
  | .ok (i, d, st) => (.ok (i, d), st)
  | .error e => (.error e, store)

/-- Store contents after all inserts of the list, in order. -/
def storeAfter (store : List EventCreate) :
    List EventCreate → List EventCreate
  | [] => store
  | e :: rest => storeAfter (insertOne store e).1 rest

/-- The row count of each insert of the call, in order. -/
def rowcounts (store : List EventCreate) : List EventCreate → List Nat
  | [] => []
  | e :: rest => (insertOne store e).2 :: rowcounts (insertOne store e).1 rest

theorem rowcounts_cons (store : List EventCreate) (e : EventCreate)
    (rest : List EventCreate) :
    rowcounts store (e :: rest)
      = (insertOne store e).2 :: rowcounts (insertOne store e).1 rest := rfl

theorem storeAfter_cons (store : List EventCreate) (e : EventCreate)
    (rest : List EventCreate) :
    storeAfter store (e :: rest) = storeAfter (insertOne store e).1 rest := rfl

theorem rowcounts_sum_add_count_zero (store : List EventCreate)
    (events : List EventCreate) :
    (rowcounts store events).sum + (rowcounts store events).count 0
      = events.length := by
  induction events generalizing store with
  | nil => rfl
  | cons e rest ih =>
    rw [rowcounts_cons]
    by_cases h : store.any (fun r => r.event_id == e.event_id)
    · have h2 : (insertOne store e).2 = 0 := by
        unfold insertOne
        rw [if_pos h]
      rw [h2]
      simp only [List.sum_cons, List.count_cons, List.length_cons]
      have := ih (insertOne store e).1
      simp only [beq_self_eq_true, if_true]
      omega
    · have h2 : (insertOne store e).2 = 1 := by
        unfold insertOne
        rw [if_neg h]
    
      rw [h2]
      simp only [List.sum_cons, List.count_cons]
      have := ih (insertOne store e).1
      have hne : ((1 : Nat) == 0) = false := by decide
      rw [hne]
      simp only [Bool.false_eq_true, if_false, List.length_cons]
      omega

theorem insertLoop_ok (raises : Nat → Bool) (events : List EventCreate) :
    ∀ (store : List EventCreate) (a b i₀ : Nat),
      (∀ i, i < events.length → raises (i₀ + i) = false) →
      insertLoop raises store events a b i₀
        = .ok (a + (rowcounts store events).sum,
               b + (rowcounts store events).count 0,
               storeAfter store events) := by
  induction events with
  | nil =>
    intro store a b i₀ _
    unfold insertLoop rowcounts storeAfter
    simp
  | cons e rest ih =>
    intro store a b i₀ h
    have h0 : raises i₀ = false := by
      have := h 0 (by simp)
      simpa using this
    have h' : ∀ i, i < rest.length → raises (i₀ + 1 + i) = false := by
      intro i hi
      have := h (i + 1) (by simp; omega)
      rw [show i₀ + (i + 1) = i₀ + 1 + i by omega] at this
      exact this
    unfold insertLoop
    rw [h0]
    simp only [Bool.false_eq_true, if_false]
    by_cases hc : store.any (fun r => r.event_id == e.event_id)
    · have h2 : (insertOne store e).2 = 0 := by
        unfold insertOne
        rw [if_pos hc]
      rw [h2]
      simp only [gt_iff_lt, Nat.lt_irrefl, if_false]
      rw [ih (insertOne store e).1 a (b + 1) (i₀ + 1) h']
      rw [rowcounts_cons, storeAfter_cons, h2]
      simp only [List.sum_cons, List.count_cons]
      have hz : ((0 : Nat) == 0) = true := by decide
      rw [hz]
      simp only [if_true]
      simp only [Except.ok.injEq, Prod.mk.injEq]
      refine ⟨by omega, by omega, trivial⟩
    · have h2 : (insertOne store e).2 = 1 := by
        unfold insertOne
        rw [if_neg hc]
      rw [h2]
      simp only [gt_iff_lt, Nat.zero_lt_one, if_true]
      rw [ih (insertOne store e).1 (a + 1) b (i₀ + 1) h']
      rw [rowcounts_cons, storeAfter_cons, h2]
      simp only [List.sum_cons, List.count_cons]
      have hne : ((1 : Nat) == 0) = false := by decide
      rw [hne]
      simp only [Bool.false_eq_true, if_false]
      simp only [Except.ok.injEq, Prod.mk.injEq]
      refine ⟨by omega, by omega, trivial⟩

theorem insertLoop_error (raises : Nat → Bool) (events : List EventCreate) :
    ∀ (k : Nat) (store : List EventCreate) (a b i₀ : Nat),
      k < events.length → raises (i₀ + k) = true →
      (∀ j, j < k → raises (i₀ + j) = false) →
      insertLoop raises store events a b i₀ = .error () := by
  induction events with
  | nil =>
    intro k store a b i₀ hk _ _
    exact absurd hk (by simp)
  | cons e rest ih =>
    intro k store a b i₀ hk hr hfore
    cases k with
    | zero =>
      unfold insertLoop
      rw [show i₀ + 0 = i₀ by omega] at hr
      rw [hr]
      simp
    | succ k' =>
      have h0 : raises i₀ = false := by
        have := hfore 0 (by omega)
        simpa using this
      unfold insertLoop
      rw [h0]
      simp only [Bool.false_eq_true, if_false]
      have hk' : k' < rest.length := by
        simp at hk
        omega
      have hr' : raises (i₀ + 1 + k') = true := by
        rw [show i₀ + 1 + k' = i₀ + (k' + 1) by omega]
        exact hr
      have hfore' : ∀ j, j < k' → raises (i₀ + 1 + j) = false := by
        intro j hj
        rw [show i₀ + 1 + j = i₀ + (j + 1) by omega]
        exact hfore (j + 1) (by omega)
      by_cases hc : (insertOne store e).2 > 0
      · rw [if_pos hc]
        exact ih k' (insertOne store e).1 (a + 1) b (i₀ + 1) hk' hr' hfore'
      · rw [if_neg hc]
        exact ih k' (insertOne store e).1 a (b + 1) (i₀ + 1) hk' hr' hfore'

theorem rowcounts_getElem (events : List EventCreate) :
    ∀ (store : List EventCreate) (k : Nat), k < events.length →
      ∃ e, events[k]? = some e ∧
        ((rowcounts store events)[k]? = some 1 ↔
          storeHasId (storeAfter store (events.take k)) e.event_id
            = false) := by
  induction events with
  | nil =>
    intro store k hk
    exact absurd hk (by simp)
  | cons e rest ih =>
    intro store k hk
    cases k with
    | zero =>
      refine ⟨e, by rw [List.getElem?_cons_zero], ?_⟩
      rw [rowcounts_cons, List.getElem?_cons_zero, List.take_zero]
      show some (insertOne store e).2 = some 1 ↔
        storeHasId store e.event_id = false
      by_cases hc : store.any (fun r => r.event_id == e.event_id)
      · have h2 : (insertOne store e).2 = 0 := by
          unfold insertOne
          rw [if_pos hc]
        rw [h2]
        unfold storeHasId
        rw [hc]
        simp
      · have h2 : (insertOne store e).2 = 1 := by
          unfold insertOne
          rw [if_neg hc]
        rw [h2]
        unfold storeHasId
        have hc' : (store.any fun r => r.event_id == e.event_id) = false := by
          cases hcc : store.any fun r => r.event_id == e.event_id
          · rfl
          · exact absurd hcc hc
        rw [hc']
        simp
    | succ k' =>
      have hk' : k' < rest.length := by
        simp at hk
        omega
      obtain ⟨e', he', hiff⟩ := ih (insertOne store e).1 k' hk'
      refine ⟨e', by rw [List.getElem?_cons_succ]; exact he', ?_⟩
      rw [rowcounts_cons, List.getElem?_cons_succ, List.take_succ_cons,
        storeAfter_cons]
      exact hiff

/-- C4: `insert_events` is transactional over the durable store.  When no
insert raises, the call commits and returns `(inserted, duplicates)` where
`inserted` is the sum of the per-insert row counts and `duplicates` the
number of zero row counts, together covering every event of the call; the
`k`-th insert's row count is 1 exactly when its event id was not already in
the store at its turn (0 on collision).  If the `k`-th insert raises (after
`k` clean ones), the transaction rolls back — the durable store is exactly
the original — and the exception propagates. -/
theorem insert_events_transactional (raises : Nat → Bool)
    (store events : List EventCreate) :
    ((∀ i, i < events.length → raises i = false) →
      insert_events raises store events
        = (.ok ((rowcounts store events).sum,
                (rowcounts store events).count 0),
           storeAfter store events) ∧
      (rowcounts store events).sum + (rowcounts store events).count 0
        = events.length) ∧
    (∀ k, k < events.length →
      ∃ e, events[k]? = some e ∧
        ((rowcounts store events)[k]? = some 1 ↔
          storeHasId (storeAfter store (events.take k)) e.event_id
            = false)) ∧
    (∀ k, k < events.length → raises k = true →
      (∀ j, j < k → raises j = false) →
      insert_events raises store events = (.error (), store)) := by
  refine ⟨?_, fun k hk => rowcounts_getElem events store k hk, ?_⟩
  · intro h
    refine ⟨?_, rowcounts_sum_add_count_zero store events⟩
    unfold insert_events
    rw [insertLoop_ok raises events store 0 0 0
      (by intro i hi; simpa using h i hi)]
    simp
  · intro k hk hr hfore
    unfold insert_events
    rw [insertLoop_error raises events k store 0 0 0 hk
      (by simpa using hr) (by intro j hj; simpa using hfore j hj)]

/-- Same event id as `evA`, different payload: a write-time collision. -/
def evA2 : EventCreate := ⟨1, "u9", "purchase", 20, []⟩

/-- Witness for C4 at a concrete input: inserting `[evA, evB, evA2]` into an
empty store with no driver failure gives `(2, 1)` and commits
`[evA, evB]`; with the second insert raising, the store stays empty and the
error propagates. -/
theorem insert_events_transactional_witness :
    (insert_events (fun _ => false) [] [evA, evB, evA2]
        = (.ok ((rowcounts [] [evA, evB, evA2]).sum,
            (rowcounts [] [evA, evB, evA2]).count 0),
           storeAfter [] [evA, evB, evA2]) ∧
      (rowcounts [] [evA, evB, evA2]).sum
        + (rowcounts [] [evA, evB, evA2]).count 0 = 3) ∧
    insert_events (fun i => decide (i = 1)) [] [evA, evB, evA2]
      = (.error (), []) := by
  constructor
  · exact (insert_events_transactional (fun _ => false) [] [evA, evB, evA2]).1
      (fun i _ => rfl)
  · exact (insert_events_transactional (fun i => decide (i = 1)) []
      [evA, evB, evA2]).2.2 1 (by decide) (by decide)
      (by
        intro j hj
        have hj0 : j = 0 := by omega
        rw [hj0]
        rfl)

/-! ### Queue consumer worker (`process_event`,
`app/workers/event_processor.py`)

The source decodes a message in two stages: `json.loads` (a failure raises
`json.JSONDecodeError`, handled by terminating the message) and
`EventCreate(**event_data)` (a failure raises a Pydantic/type error, which
is *not* a `JSONDecodeError` and falls through to the generic handler that
negatively acknowledges).  The decode outcome of a message is modelled by
this three-way result. -/

/-- Outcome of decoding a message payload into an event record. -/
inductive DecodeResult where
  | jsonError
  | validationError
  | ok (e : EventCreate)
  deriving DecidableEq

/-- Disposition of a message after processing. -/
inductive MsgAction where
  | ack
  | term
  | nak (delay : Nat)
  deriving DecidableEq

/-- The worker metrics the claim mentions: `events_failed_total` split by
reason label, and `events_ingested_total`. -/
structure WorkerMetrics where
  decode_errors : Nat
  processing_errors : Nat
  ingested_total : Nat
  deriving DecidableEq

/-- `process_event`: decode the payload; on `json.JSONDecodeError` terminate
the message (no redelivery) and bump the decode-error metric; otherwise
insert into the store via `insert_events` inside a session; acknowledge on
success; on any other exception (schema validation failure or store
failure) negatively acknowledge with a 5-second delay and bump the
processing-error metric. -/
def process_event (decode : DecodeResult) (raises : Nat → Bool)
    (store : List EventCreate) (m : WorkerMetrics) :
    MsgAction × List EventCreate × WorkerMetrics :=
  match decode with
  | .jsonError =>
    (.term, store, { m with decode_errors := m.decode_errors + 1 })
  | .validationError =>
    (.nak 5, store,
     { m with processing_errors := m.processing_errors + 1 })
  | .ok e =>
    match insert_events raises store [e] with
    | (.ok r, store') =>
      (.ack, store',
       if r.1 > 0 then { m with ingested_total := m.ingested_total + 1 }
       else m)
    | (.error _, store') =>
      (.nak 5, store',
       { m with processing_errors := m.processing_errors + 1 })

/-- Counterexample to C5 as stated: the payload `[1, 2]` is valid JSON but
does not decode into an event record; the claim says the worker terminates
such a message and bumps the decode-error metric, but the code's
`json.loads` succeeds and the Pydantic construction failure reaches the
generic handler, so the worker naks with a 5-second delay and bumps the
processing-error metric instead. -/
theorem process_event_validation_error_not_term :
    process_event .validationError (fun _ => false) [] ⟨0, 0, 0⟩
        = (.nak 5, [], ⟨0, 1, 0⟩) ∧
      (process_event .validationError (fun _ => false) [] ⟨0, 0, 0⟩).1
        ≠ MsgAction.term := by
  exact ⟨rfl, by decide⟩

/-- C5 (amended): if the payload fails to parse as JSON the worker
terminates the message (no redelivery), increments the decode-error metric
and performs no store write; if the JSON parses but the record fails
validation, the worker negatively acknowledges with a 5-second delay (no
acknowledgment, no store write, processing-error metric); if decoding
succeeds and the store insert succeeds the worker acknowledges; and on a
store failure after a successful decode the worker negatively acknowledges
with a 5-second delay, the store is unchanged, and no acknowledgment
happens. -/
theorem process_event_ok_eq (e : EventCreate) (raises : Nat → Bool)
    (store : List EventCreate) (m : WorkerMetrics) :
    process_event (.ok e) raises store m
      = match insert_events raises store [e] with
        | (.ok r, store') =>
          (.ack, store',
           if r.1 > 0 then
             { m with ingested_total := m.ingested_total + 1 }
           else m)
        | (.error _, store') =>
          (.nak 5, store',
           { m with processing_errors := m.processing_errors + 1 }) := rfl

theorem process_event_dispositions (raises : Nat → Bool)
    (store : List EventCreate) (m : WorkerMetrics) :
    (process_event .jsonError raises store m
        = (.term, store,
           { m with decode_errors := m.decode_errors + 1 })) ∧
    (process_event .validationError raises store m
        = (.nak 5, store,
           { m with processing_errors := m.processing_errors + 1 })) ∧
    (∀ e, raises 0 = false →
      (process_event (.ok e) raises store m).1 = MsgAction.ack ∧
      (process_event (.ok e) raises store m).2.1
        = storeAfter store [e]) ∧
    (∀ e, raises 0 = true →
      (process_event (.ok e) raises store m).1 = MsgAction.nak 5 ∧
      (process_event (.ok e) raises store m).2.1 = store ∧
      (process_event (.ok e) raises store m).2.2
        = { m with processing_errors := m.processing_errors + 1 }) := by
  refine ⟨rfl, rfl, ?_, ?_⟩
  · intro e h0
    have hok := (insert_events_transactional raises store [e]).1
      (by
        intro i hi
        have hi0 : i = 0 := by
          simp at hi
          omega
        rw [hi0]
        exact h0)
    rw [process_event_ok_eq, hok.1]
    exact ⟨rfl, rfl⟩
  · intro e h0
    have herr := (insert_events_transactional raises store [e]).2.2 0
      (by simp) h0 (fun j hj => absurd hj (by omega))
    rw [process_event_ok_eq, herr]
    exact ⟨rfl, rfl, rfl⟩

/-- Witness for C5 (amended) at concrete inputs: a good event acked into the
store, a store failure nak'd with the store unchanged. -/
theorem process_event_dispositions_witness :
    (process_event .jsonError (fun _ => false) [] ⟨0, 0, 0⟩
        = (.term, [], ⟨1, 0, 0⟩)) ∧
    ((process_event (.ok evA) (fun _ => false) [] ⟨0, 0, 0⟩).1
        = MsgAction.ack ∧
      (process_event (.ok evA) (fun _ => false) [] ⟨0, 0, 0⟩).2.1
        = storeAfter [] [evA]) ∧
    ((process_event (.ok evA) (fun _ => true) [] ⟨0, 0, 0⟩).1
        = MsgAction.nak 5 ∧
      (process_event (.ok evA) (fun _ => true) [] ⟨0, 0, 0⟩).2.1 = []) := by
  have h := process_event_dispositions (fun _ => false) [] ⟨0, 0, 0⟩
  have h' := process_event_dispositions (fun _ => true) [] ⟨0, 0, 0⟩
  refine ⟨h.1, h.2.2.1 evA rfl, ?_⟩
  have := h'.2.2.2 evA rfl
  exact ⟨this.1, this.2.1⟩

/-! ### Analytics: DAU (`EventService.get_dau`, `app/api/routes/stats.py`)

Timestamps are integer seconds; `DATE(occurred_at)` is the floor-quotient
by 86400 and a calendar date `d` denotes the half-open second interval
`[d * 86400, (d + 1) * 86400)`. -/

/-- `DATE(occurred_at)`: the calendar date of a timestamp. -/
def dateOf (ts : Int) : Int := ts.fdiv 86400

/-- First instant of a calendar date (the SQL cast of a date parameter to a
timestamp at midnight). -/
def dayStart (d : Int) : Int := d * 86400

/-- The query's WHERE clause:
`occurred_at >= :from_date AND occurred_at < :to_date` with
`:to_date = to + 1 day`. -/
def inWindow (fromD toD : Int) (e : EventCreate) : Bool :=
  decide (dayStart fromD ≤ e.occurred_at) &&
    decide (e.occurred_at < dayStart (toD + 1))

/-- `COUNT(DISTINCT user_id)` over a row set. -/
def distinctUsers (evs : List EventCreate) : Nat :=
  ((evs.map (fun e => e.user_id)).dedup).length

/-- `EventService.get_dau`: filter events to `[from, to+1day)`, group by
`DATE(occurred_at)`, count distinct user ids per group, order by date
ascending. -/
def get_dau (store : List EventCreate) (fromD toD : Int) :
    List (Int × Nat) :=
  let evs := store.filter (inWindow fromD toD)
  let dates :=
    ((evs.map (fun e => dateOf e.occurred_at)).dedup).insertionSort (· ≤ ·)
  dates.map (fun d =>
    (d, distinctUsers (evs.filter (fun e => dateOf e.occurred_at == d))))

/-- The `/stats/dau` route: reject `from > to` with a 400 client error
before reaching the store; otherwise run the query. -/
def get_daily_active_users (store : List EventCreate) (fromD toD : Int) :
    Except Nat (List (Int × Nat)) :=
  if fromD > toD then .error 400
  else .ok (get_dau store fromD toD)

/-- The distinct-user count of one day of the claim: events in the window
whose calendar date is `d`, distinct user ids counted. -/
def dauCount (store : List EventCreate) (fromD toD d : Int) : Nat :=
  distinctUsers (store.filter (fun e =>
    inWindow fromD toD e && (dateOf e.occurred_at == d)))

theorem mem_map_pair {β : Type} [DecidableEq β] (dates : List Int)
    (f : Int → β) (d : Int) (n : β) :
    (d, n) ∈ dates.map (fun d => (d, f d)) ↔ d ∈ dates ∧ n = f d := by
  rw [List.mem_map]
  constructor
  · rintro ⟨a, ha, heq⟩
    have h1 : a = d := congrArg Prod.fst heq
    have h2 : f a = n := congrArg Prod.snd heq
    exact ⟨h1 ▸ ha, by rw [← h2, h1]⟩
  · rintro ⟨hd, hn⟩
    exact ⟨d, hd, by rw [hn]⟩

theorem get_dau_group_count (store : List EventCreate) (fromD toD d : Int) :
    distinctUsers ((store.filter (inWindow fromD toD)).filter
        (fun e => dateOf e.occurred_at == d))
      = dauCount store fromD toD d := by
  unfold dauCount
  rw [List.filter_filter]
  congr 1
  apply List.filter_congr
  intro e _
  exact Bool.and_comm _ _

theorem map_fst_pair {β : Type} (l : List Int) (f : Int → β) :
    ((l.map (fun d => (d, f d))).map Prod.fst) = l := by
  induction l with
  | nil => rfl
  | cons a l ih => simp [ih]

/-- C9: for `from ≤ to` the DAU query returns, in strictly ascending date
order, one row per calendar date having at least one event with occurrence
timestamp in `[from, to+1day)`, each row carrying the count of distinct
user identifiers among the window's events of that date; `from > to` is
rejected with a 400 client error before the store is queried. -/
theorem get_dau_spec (store : List EventCreate) (fromD toD : Int) :
    (fromD > toD → get_daily_active_users store fromD toD = .error 400) ∧
    (fromD ≤ toD →
      get_daily_active_users store fromD toD
        = .ok (get_dau store fromD toD)) ∧
    List.Sorted (· < ·) ((get_dau store fromD toD).map Prod.fst) ∧
    (∀ d n, (d, n) ∈ get_dau store fromD toD ↔
      ((∃ e ∈ store, inWindow fromD toD e = true ∧ dateOf e.occurred_at = d)
        ∧ n = dauCount store fromD toD d)) := by
  have hshape : get_dau store fromD toD
      = (((store.filter (inWindow fromD toD)).map
            (fun e => dateOf e.occurred_at)).dedup.insertionSort
              (· ≤ ·)).map
          (fun d => (d, distinctUsers ((store.filter
            (inWindow fromD toD)).filter
              (fun e => dateOf e.occurred_at == d)))) := rfl
  have hdates : ∀ d : Int,
      (d ∈ ((store.filter (inWindow fromD toD)).map
          (fun e => dateOf e.occurred_at)).dedup.insertionSort (· ≤ ·)) ↔
        ∃ e ∈ store, inWindow fromD toD e = true
          ∧ dateOf e.occurred_at = d := by
    intro d
    rw [List.mem_insertionSort, List.mem_dedup, List.mem_map]
    constructor
    · rintro ⟨e, he, hd⟩
      have hm := List.mem_filter.mp he
      exact ⟨e, hm.1, hm.2, hd⟩
    · rintro ⟨e, he, hw, hd⟩
      exact ⟨e, List.mem_filter.mpr ⟨he, hw⟩, hd⟩
  refine ⟨?_, ?_, ?_, ?_⟩
  · intro h
    unfold get_daily_active_users
    rw [if_pos h]
  · intro h
    unfold get_daily_active_users
    rw [if_neg (by omega)]
  · rw [hshape, map_fst_pair]
    have hsorted : List.Sorted (· ≤ ·)
        (((store.filter (inWindow fromD toD)).map
          (fun e => dateOf e.occurred_at)).dedup.insertionSort (· ≤ ·)) :=
      List.sorted_insertionSort _ _
    have hnodup : (((store.filter (inWindow fromD toD)).map
        (fun e => dateOf e.occurred_at)).dedup.insertionSort
          (· ≤ ·)).Nodup :=
      ((List.perm_insertionSort _ _).nodup_iff).mpr (List.nodup_dedup _)
    exact hsorted.lt_of_le hnodup
  · intro d n
    rw [hshape, mem_map_pair, hdates d, get_dau_group_count]

/-- Seeded events for the DAU witness: users uA and uB on day 0, uA on
day 1 (timestamps in seconds). -/
def dauE1 : EventCreate := ⟨11, "uA", "login", 100, []⟩

def dauE2 : EventCreate := ⟨12, "uB", "login", 200, []⟩

def dauE3 : EventCreate := ⟨13, "uA", "login", 86450, []⟩

/-- Witness for C9 at a concrete input: `from = 2 > to = 1` is rejected with
400, and over `[0, 1]` day 0 reports 2 distinct users. -/
theorem get_dau_spec_witness :
    get_daily_active_users [dauE1, dauE2, dauE3] 2 1 = .error 400 ∧
    (0, 2) ∈ get_dau [dauE1, dauE2, dauE3] 0 1 := by
  refine ⟨(get_dau_spec [dauE1, dauE2, dauE3] 2 1).1 (by decide), ?_⟩
  exact ((get_dau_spec [dauE1, dauE2, dauE3] 0 1).2.2.2 0 2).mpr (by decide)

/-! ### Analytics: retention (`EventService.get_retention`,
`app/models/event.py`, `app/api/routes/stats.py`)

The route accepts `windows ∈ [1, 10]` and `window_type ∈ {daily, weekly}`.
The result model `RetentionCohort` declares only the fields `window_1..3`
and `retention_rate_1..3`; the service writes `window_{k}` /
`retention_rate_{k}` with `setattr`, and a Pydantic `BaseModel` raises
`ValueError` when assigning a name that is not a declared field — modelled
here by `set_window` / `set_retention_rate` returning an error for
`k ∉ {1, 2, 3}`. -/

/-- The `window_type` query parameter. -/
inductive WindowType where
  | daily
  | weekly
  deriving DecidableEq

/-- `RetentionCohort` from `app/models/event.py`: cohort size plus the
declared retention fields for windows 1..3. -/
structure RetentionCohort where
  cohort_start : Int
  window_0 : Nat
  window_1 : Option Nat := none
  window_2 : Option Nat := none
  window_3 : Option Nat := none
  retention_rate_1 : Option ℚ := none
  retention_rate_2 : Option ℚ := none
  retention_rate_3 : Option ℚ := none
  deriving DecidableEq

/-- `setattr(cohort, f"window_{k}", v)`: Pydantic rejects names that are
not declared fields, so only `k ∈ {1, 2, 3}` succeeds. -/
def set_window (c : RetentionCohort) (k : Nat) (v : Nat) :
    Except String RetentionCohort :=
  match k with
  | 1 => .ok { c with window_1 := some v }
  | 2 => .ok { c with window_2 := some v }
  | 3 => .ok { c with window_3 := some v }
  | _ => .error "object has no field"

/-- `setattr(cohort, f"retention_rate_{k}", v)`: same field restriction. -/
def set_retention_rate (c : RetentionCohort) (k : Nat) (v : ℚ) :
    Except String RetentionCohort :=
  match k with
  | 1 => .ok { c with retention_rate_1 := some v }
  | 2 => .ok { c with retention_rate_2 := some v }
  | 3 => .ok { c with retention_rate_3 := some v }
  | _ => .error "object has no field"

/-- Python's `round(x, 2)`: round to two decimal places (exact rational
arithmetic in the model). -/
def round2 (q : ℚ) : ℚ := ((round (q * 100) : Int) : ℚ) / 100

/-- `SELECT DISTINCT user_id FROM events WHERE DATE(occurred_at) = d`. -/
def usersActiveOn (store : List EventCreate) (d : Int) : List UserId :=
  ((store.filter (fun e => dateOf e.occurred_at == d)).map
    (fun e => e.user_id)).dedup

/-- Count of distinct cohort members with an event on date `d`
(`SELECT DISTINCT user_id WHERE DATE(occurred_at) = d AND user_id = ANY(cohort)`). -/
def cohortRetainedOn (store : List EventCreate) (cohort : List UserId)
    (d : Int) : Nat :=
  (((store.filter (fun e =>
      (dateOf e.occurred_at == d) && cohort.contains e.user_id)).map
        (fun e => e.user_id)).dedup).length

/-- Window date for offset `k`: `start + timedelta(days := k)` for daily,
`start + timedelta(weeks := k)` for weekly. -/
def retentionWindowDate (start : Int) (wt : WindowType) (k : Nat) : Int :=
  match wt with
  | .daily => start + k
  | .weekly => start + 7 * k

/-- The loop `for window in range(1, windows + 1)` of `get_retention`:
compute retained users and rate for window `k` and assign them onto the
cohort record; a failed assignment propagates. -/
def retentionLoop (store : List EventCreate) (cohort : List UserId)
    (start : Int) (wt : WindowType) (windows : Nat) (k : Nat)
    (c : RetentionCohort) : Except String RetentionCohort :=
  if windows + 1 ≤ k then .ok c
  else
    let retained := cohortRetainedOn store cohort
      (retentionWindowDate start wt k)
    let rate := round2 ((retained : ℚ) / ((cohort.length : ℚ)) * 100)
    match set_window c k retained with
    | .error msg => .error msg
    | .ok c₁ =>
      match set_retention_rate c₁ k rate with
      | .error msg => .error msg
      | .ok c₂ => retentionLoop store cohort start wt windows (k + 1) c₂
termination_by windows + 1 - k
decreasing_by omega

/-- `EventService.get_retention`: the cohort is the distinct users active
on `start`; an empty cohort returns an empty result; otherwise the windows
loop fills one cohort record, which is returned as a one-element list. -/
def get_retention (store : List EventCreate) (start : Int) (windows : Nat)
    (wt : WindowType) : Except String (List RetentionCohort) :=
  let cohort := usersActiveOn store start
  if cohort.isEmpty then .ok []
  else
    match retentionLoop store cohort start wt windows 1
      { cohort_start := start, window_0 := cohort.length } with
    | .error msg => .error msg
    | .ok c => .ok [c]

theorem retentionLoop_stop (store : List EventCreate) (cohort : List UserId)
    (start : Int) (wt : WindowType) (windows k : Nat) (c : RetentionCohort)
    (h : windows + 1 ≤ k) :
    retentionLoop store cohort start wt windows k c = .ok c := by
  unfold retentionLoop
  rw [if_pos h]

theorem retentionLoop_step_one (store : List EventCreate)
    (cohort : List UserId) (start : Int) (wt : WindowType) (windows : Nat)
    (c : RetentionCohort) (h : ¬ windows + 1 ≤ 1) :
    retentionLoop store cohort start wt windows 1 c
      = retentionLoop store cohort start wt windows 2
          { c with
            window_1 := some (cohortRetainedOn store cohort
              (retentionWindowDate start wt 1)),
            retention_rate_1 := some (round2
              (((cohortRetainedOn store cohort
                  (retentionWindowDate start wt 1) : Nat) : ℚ)
                / ((cohort.length : ℚ)) * 100)) } := by
  rw [retentionLoop.eq_def]
  rw [if_neg h]
  rfl

theorem retentionLoop_step_two (store : List EventCreate)
    (cohort : List UserId) (start : Int) (wt : WindowType) (windows : Nat)
    (c : RetentionCohort) (h : ¬ windows + 1 ≤ 2) :
    retentionLoop store cohort start wt windows 2 c
      = retentionLoop store cohort start wt windows 3
          { c with
            window_2 := some (cohortRetainedOn store cohort
              (retentionWindowDate start wt 2)),
            retention_rate_2 := some (round2
              (((cohortRetainedOn store cohort
                  (retentionWindowDate start wt 2) : Nat) : ℚ)
                / ((cohort.length : ℚ)) * 100)) } := by
  rw [retentionLoop.eq_def]
  rw [if_neg h]
  rfl

theorem retentionLoop_step_three (store : List EventCreate)
    (cohort : List UserId) (start : Int) (wt : WindowType) (windows : Nat)
    (c : RetentionCohort) (h : ¬ windows + 1 ≤ 3) :
    retentionLoop store cohort start wt windows 3 c
      = retentionLoop store cohort start wt windows 4
          { c with
            window_3 := some (cohortRetainedOn store cohort
              (retentionWindowDate start wt 3)),
            retention_rate_3 := some (round2
              (((cohortRetainedOn store cohort
                  (retentionWindowDate start wt 3) : Nat) : ℚ)
                / ((cohort.length : ℚ)) * 100)) } := by
  rw [retentionLoop.eq_def]
  rw [if_neg h]
  rfl

theorem retentionLoop_step_four_fails (store : List EventCreate)
    (cohort : List UserId) (start : Int) (wt : WindowType) (windows : Nat)
    (c : RetentionCohort) (h : ¬ windows + 1 ≤ 4) :
    retentionLoop store cohort start wt windows 4 c
      = .error "object has no field" := by
  rw [retentionLoop.eq_def]
  rw [if_neg h]
  rfl

/-- Cohort events for the retention witness: users u1, u2 active on day 0,
u1 active on day 1, nobody on day 2. -/
def rE1 : EventCreate := ⟨21, "u1", "open", 10, []⟩

def rE2 : EventCreate := ⟨22, "u2", "open", 20, []⟩

def rE3 : EventCreate := ⟨23, "u1", "open", 86410, []⟩

/-- C1: the retention query behaves as the claim says only for
`windows ≤ 3`.  An empty cohort returns an empty result for every windows
value; for `windows = 2` the result is one cohort record whose cohort is
the distinct users active on the start date, with
`window_k = |cohort members active on start + k·window|` and
`retention_rate_k = round(window_k / window_0 × 100, 2)`; but for every
`windows ≥ 4` — the route admits up to 10 — a nonempty cohort makes the
service raise (`setattr` of the undeclared field `window_4` on the Pydantic
model), so the claim's range `1 ≤ W ≤ 10` does not hold on the code. -/
theorem get_retention_windows_spec_and_bug :
    (∀ (store : List EventCreate) (start : Int) (windows : Nat)
        (wt : WindowType),
      usersActiveOn store start = [] →
      get_retention store start windows wt = .ok []) ∧
    (∀ (store : List EventCreate) (start : Int) (wt : WindowType),
      usersActiveOn store start ≠ [] →
      get_retention store start 2 wt
        = .ok [{ cohort_start := start,
                 window_0 := (usersActiveOn store start).length,
                 window_1 := some (cohortRetainedOn store
                   (usersActiveOn store start)
                   (retentionWindowDate start wt 1)),
                 window_2 := some (cohortRetainedOn store
                   (usersActiveOn store start)
                   (retentionWindowDate start wt 2)),
                 window_3 := none,
                 retention_rate_1 := some (round2
                   (((cohortRetainedOn store (usersActiveOn store start)
                       (retentionWindowDate start wt 1) : Nat) : ℚ)
                     / (((usersActiveOn store start).length : ℚ)) * 100)),
                 retention_rate_2 := some (round2
                   (((cohortRetainedOn store (usersActiveOn store start)
                       (retentionWindowDate start wt 2) : Nat) : ℚ)
                     / (((usersActiveOn store start).length : ℚ)) * 100)),
                 retention_rate_3 := none }]) ∧
    (∀ (store : List EventCreate) (start : Int) (windows : Nat)
        (wt : WindowType),
      4 ≤ windows →
      usersActiveOn store start ≠ [] →
      get_retention store start windows wt
        = .error "object has no field") := by
  refine ⟨?_, ?_, ?_⟩
  · intro store start windows wt h
    have hemp : (usersActiveOn store start).isEmpty = true := by
      rw [List.isEmpty_iff]
      exact h
    unfold get_retention
    simp only [hemp, if_true]
  · intro store start wt h
    have hne : (usersActiveOn store start).isEmpty = false := by
      rw [List.isEmpty_eq_false]
      exact h
    unfold get_retention
    simp only [hne, Bool.false_eq_true, if_false]
    rw [retentionLoop_step_one _ _ _ _ _ _ (by omega),
      retentionLoop_step_two _ _ _ _ _ _ (by omega),
      retentionLoop_stop _ _ _ _ _ _ _ (by omega)]
  · intro store start windows wt hw h
    have hne : (usersActiveOn store start).isEmpty = false := by
      rw [List.isEmpty_eq_false]
      exact h
    unfold get_retention
    simp only [hne, Bool.false_eq_true, if_false]
    rw [retentionLoop_step_one _ _ _ _ _ _ (by omega),
      retentionLoop_step_two _ _ _ _ _ _ (by omega),
      retentionLoop_step_three _ _ _ _ _ _ (by omega),
      retentionLoop_step_four_fails _ _ _ _ _ _ (by omega)]

/-- Witness for C1 at concrete inputs: day-0 cohort `{u1, u2}`,
`windows = 4` (admitted by the route) fails, `windows = 2` succeeds, and an
empty store returns an empty result for `windows = 10`. -/
theorem get_retention_windows_spec_and_bug_witness :
    get_retention [rE1, rE2, rE3] 0 4 .daily
        = .error "object has no field" ∧
    get_retention ([] : List EventCreate) 0 10 .daily = .ok [] ∧
    get_retention [rE1, rE2, rE3] 0 2 .daily
        = .ok [{ cohort_start := 0,
                 window_0 := (usersActiveOn [rE1, rE2, rE3] 0).length,
                 window_1 := some (cohortRetainedOn [rE1, rE2, rE3]
                   (usersActiveOn [rE1, rE2, rE3] 0)
                   (retentionWindowDate 0 .daily 1)),
                 window_2 := some (cohortRetainedOn [rE1, rE2, rE3]
                   (usersActiveOn [rE1, rE2, rE3] 0)
                   (retentionWindowDate 0 .daily 2)),
                 window_3 := none,
                 retention_rate_1 := some (round2
                   (((cohortRetainedOn [rE1, rE2, rE3]
                       (usersActiveOn [rE1, rE2, rE3] 0)
                       (retentionWindowDate 0 .daily 1) : Nat) : ℚ)
                     / (((usersActiveOn [rE1, rE2, rE3] 0).length : ℚ))
                     * 100)),
                 retention_rate_2 := some (round2
                   (((cohortRetainedOn [rE1, rE2, rE3]
                       (usersActiveOn [rE1, rE2, rE3] 0)
                       (retentionWindowDate 0 .daily 2) : Nat) : ℚ)
                     / (((usersActiveOn [rE1, rE2, rE3] 0).length : ℚ))
                     * 100)),
                 retention_rate_3 := none }] := by
  refine ⟨get_retention_windows_spec_and_bug.2.2 [rE1, rE2, rE3] 0 4 .daily
      (by omega) (by decide),
    get_retention_windows_spec_and_bug.1 [] 0 10 .daily (by decide),
    get_retention_windows_spec_and_bug.2.1 [rE1, rE2, rE3] 0 .daily
      (by decide)⟩
